import Mathlib

/-!
Shallow embedding of `src/session_manager.py` (class `SessionManager`) from the
tidb-memory repository, together with proofs of the specification claims.

Modelling conventions:
* Timestamps (`datetime`) are modelled by their serialized textual form
  (the spec requires a consistently sortable, round-trippable textual form),
  compared lexicographically by code point exactly as Python compares `str`.
* The two JSON documents (`sessions.json`, `summaries.json`) are association
  lists from session_id to record, in insertion order, as Python dicts are.
  A document that cannot be read or parsed (`json.load` raising) is `.error ()`.
* Fallible external effects are explicit inputs: each file write takes a `Bool`
  saying whether the write succeeds (a failed write raises in Python; the model
  returns the error branch and leaves the document unchanged), the summarizer
  call is an `Except Unit String`, and `now()` values are passed in.
* Python `list.sort` (Timsort) is a stable sort; `List.insertionSort` is also
  stable, and two stable sorts with the same comparison produce identical
  output, so the embedding uses `List.insertionSort`.
-/

namespace TidbMemory

/-! ### Python string comparison (code point lexicographic) -/

/-- Lexicographic less-or-equal on char lists, by code point, as Python
compares strings. -/
def strLeAux : List Char → List Char → Bool
  | [], _ => true
  | _ :: _, [] => false
  | a :: as, b :: bs =>
    decide (a.val.toNat < b.val.toNat) ||
      (decide (a.val.toNat = b.val.toNat) && strLeAux as bs)

/-- Python string less-or-equal. -/
def pyStrLe (a b : String) : Bool := strLeAux a.data b.data

theorem strLeAux_trans : ∀ a b c : List Char,
    strLeAux a b = true → strLeAux b c = true → strLeAux a c = true
  | [], _, _, _, _ => rfl
  | _ :: _, [], _, h, _ => by simp [strLeAux] at h
  | _ :: _, _ :: _, [], _, h => by simp [strLeAux] at h
  | a :: as, b :: bs, c :: cs, h₁, h₂ => by
    simp only [strLeAux, Bool.or_eq_true, Bool.and_eq_true,
      decide_eq_true_eq] at h₁ h₂ ⊢
    rcases h₁ with h₁ | ⟨h₁e, h₁r⟩
    · rcases h₂ with h₂ | ⟨h₂e, h₂r⟩
      · exact Or.inl (Nat.lt_trans h₁ h₂)
      · exact Or.inl (by omega)
    · rcases h₂ with h₂ | ⟨h₂e, h₂r⟩
      · exact Or.inl (by omega)
      · exact Or.inr ⟨by omega, strLeAux_trans as bs cs h₁r h₂r⟩

theorem strLeAux_total : ∀ a b : List Char,
    (strLeAux a b || strLeAux b a) = true
  | [], _ => by simp [strLeAux]
  | _ :: _, [] => by simp [strLeAux]
  | a :: as, b :: bs => by
    simp only [strLeAux, Bool.or_eq_true, Bool.and_eq_true, decide_eq_true_eq]
    rcases Nat.lt_trichotomy a.val.toNat b.val.toNat with h | h | h
    · tauto
    · have := strLeAux_total as bs
      simp only [Bool.or_eq_true, Bool.and_eq_true, decide_eq_true_eq] at this
      tauto
    · tauto

theorem pyStrLe_trans {a b c : String} (h₁ : pyStrLe a b = true)
    (h₂ : pyStrLe b c = true) : pyStrLe a c = true :=
  strLeAux_trans _ _ _ h₁ h₂

theorem pyStrLe_total (a b : String) : (pyStrLe a b || pyStrLe b a) = true :=
  strLeAux_total _ _

/-! ### Data model

Records mirror `models.py`: `Message`, `ChatSession`, `SessionSummary`.
`models.py` itself is not under `src/`; field lists and the serialization
round trip are modelled from the spec (sections 3 and 6). -/

/-- Datetime, modelled by its serialized textual form. -/
abbrev DateTime := String

inductive Role
  | user
  | assistant
  | system
deriving DecidableEq, Repr

structure Message where
  role : Role
  content : String
  timestamp : DateTime
deriving DecidableEq, Repr

structure SessionSummary where
  session_id : String
  summary : String
  message_count : Nat
  start_time : DateTime
  end_time : DateTime
deriving DecidableEq, Repr

structure ChatSession where
  session_id : String
  messages : List Message
  start_time : DateTime
  is_active : Bool
  memory_enabled : Bool
  previous_summaries : List SessionSummary
deriving DecidableEq, Repr

/-- Raw stored JSON record of a session. Each field may be absent from the
stored dict (the source reads several of them with `.get` and a default),
hence every field is an `Option`. -/
structure RawSession where
  session_id : Option String
  messages : Option (List Message)
  start_time : Option DateTime
  is_active : Option Bool
  memory_enabled : Option Bool
  previous_summaries : Option (List SessionSummary)
deriving DecidableEq, Repr

/-- Modelled from the spec: `ChatSession.to_dict` lives in `models.py`, which is
not under `src/`; the spec (section 6) says every field is persisted. -/
def ChatSession.to_dict (s : ChatSession) : RawSession :=
  { session_id := some s.session_id
    messages := some s.messages
    start_time := some s.start_time
    is_active := some s.is_active
    memory_enabled := some s.memory_enabled
    previous_summaries := some s.previous_summaries }

/-- Modelled from the spec: `ChatSession.from_dict` lives in `models.py`, which
is not under `src/`; per the spec the persisted form is round-trippable, and a
record missing a required field makes deserialization fail (`none`). -/
def RawSession.from_dict? (r : RawSession) : Option ChatSession := do
  let sid ← r.session_id
  let msgs ← r.messages
  let st ← r.start_time
  let ia ← r.is_active
  let me ← r.memory_enabled
  let ps ← r.previous_summaries
  pure ⟨sid, msgs, st, ia, me, ps⟩

theorem from_dict_to_dict (s : ChatSession) :
    s.to_dict.from_dict? = some s := rfl

/-! ### Python dict operations (association lists, insertion order) -/

/-- Python dict lookup: `m[k]` / `k in m`. -/
def dictGet? {α : Type} : List (String × α) → String → Option α
  | [], _ => none
  | (k, v) :: rest, key => if k = key then some v else dictGet? rest key

/-- Python dict assignment `m[key] = v`: replaces in place when the key is
present, otherwise appends. -/
def dictSet {α : Type} : List (String × α) → String → α → List (String × α)
  | [], key, v => [(key, v)]
  | (k, w) :: rest, key, v =>
    if k = key then (k, v) :: rest else (k, w) :: dictSet rest key v

/-- Python `del m[key]` / `m.pop(key, None)`: removes the entry for the key
(the first occurrence; stored dicts have unique keys). -/
def dictErase {α : Type} : List (String × α) → String → List (String × α)
  | [], _ => []
  | (k, v) :: rest, key =>
    if k = key then rest else (k, v) :: dictErase rest key

/-- Python `list(m.keys())`. -/
def dictKeys {α : Type} (m : List (String × α)) : List String := m.map Prod.fst

/-- Python `list(m.values())`. -/
def dictValues {α : Type} (m : List (String × α)) : List α := m.map Prod.snd

/-! ### Storage state -/

/-- State of the two JSON documents. `.error ()` means the document cannot be
read or parsed (`json.load` raises); a missing file reads as the empty dict
and is represented by `.ok []`. -/
structure Disk where
  sessionsDoc : Except Unit (List (String × RawSession))
  summariesDoc : Except Unit (List (String × SessionSummary))

/-! ### SessionManager operations (`src/session_manager.py`) -/

/-- Source `_load_sessions` (lines 160-169): returns the parsed sessions dict,
or the empty dict when the file is missing or unreadable. -/
def load_sessions (d : Disk) : List (String × RawSession) :=
  match d.sessionsDoc with
  | .ok m => m
  | .error _ => []

/-- Source `_load_summaries` (lines 186-195): returns the parsed summaries
dict, or the empty dict when the file is missing or unreadable. -/
def load_summaries (d : Disk) : List (String × SessionSummary) :=
  match d.summariesDoc with
  | .ok m => m
  | .error _ => []

/-- Descending order on summaries by `end_time`:
`summaries.sort(key=lambda x: x.end_time, reverse=True)` at line 207. -/
def summaryDescLe (a b : SessionSummary) : Bool := pyStrLe b.end_time a.end_time

/-- Source `_load_all_summaries` (lines 197-212): deserialize every stored
summary and sort by `end_time`, most recent first (stable sort). -/
def load_all_summaries (d : Disk) : List SessionSummary :=
  List.insertionSort (fun a b => summaryDescLe a b = true) (dictValues (load_summaries d))

/-- Source `get_session_summaries` (lines 156-158). -/
def get_session_summaries (d : Disk) : List SessionSummary :=
  load_all_summaries d

/-- Source `create_session` (lines 28-47). The fresh short id and the clock
reading are external inputs. The method performs no storage write: it returns
only the new session. -/
def create_session (d : Disk) (memory_enabled : Bool) (session_id : String)
    (now : DateTime) : ChatSession :=
  let previous_summaries := if memory_enabled then load_all_summaries d else []
  { session_id
    messages := []
    start_time := now
    is_active := true
    memory_enabled
    previous_summaries }

/-- Source `save_session` (lines 49-62): load the sessions dict, upsert the
serialized session, rewrite the file. `writeOk` says whether the file write
succeeds; a failed write raises to the caller (`raise` at line 62), modelled
by the `.error` branch, with the document unchanged. -/
def save_session (d : Disk) (s : ChatSession) (writeOk : Bool) :
    Except Unit Disk :=
  let sessions := load_sessions d
  let sessions := dictSet sessions s.session_id s.to_dict
  if writeOk then .ok { d with sessionsDoc := .ok sessions } else .error ()

/-- Source `load_session` (lines 64-79): look the id up in the loaded dict;
absent key, unreadable collection, and a record that fails to deserialize all
yield `none`. -/
def load_session (d : Disk) (session_id : String) : Option ChatSession :=
  match dictGet? (load_sessions d) session_id with
  | some raw => raw.from_dict?
  | none => none

/-- Source `_save_summary` (lines 171-184): load the summaries dict, upsert
the summary keyed by its session_id, rewrite the file; a failed write raises
(`raise` at line 184). -/
def save_summary (d : Disk) (summ : SessionSummary) (writeOk : Bool) :
    Except Unit Disk :=
  let summaries := load_summaries d
  let summaries := dictSet summaries summ.session_id summ
  if writeOk then .ok { d with summariesDoc := .ok summaries } else .error ()

/-- Source `close_session` (lines 81-110). Inputs: the summarizer outcome
`gen`, the clock reading `now`, and success flags for the two writes. The
session is marked inactive first; any later failure is caught and `none` is
returned, with the in-memory session already mutated. Returns the (mutated)
session, the result, and the resulting disk. -/
def close_session (d : Disk) (s : ChatSession) (gen : Except Unit String)
    (now : DateTime) (writeSummaryOk writeSessionOk : Bool) :
    ChatSession × Option SessionSummary × Disk :=
  let s := { s with is_active := false }
  match gen with
  | .error _ => (s, none, d)
  | .ok text =>
    let summ : SessionSummary :=
      { session_id := s.session_id
        summary := text
        message_count := s.messages.length
        start_time := s.start_time
        end_time := now }
    match save_summary d summ writeSummaryOk with
    | .error _ => (s, none, d)
    | .ok d₁ =>
      match save_session d₁ s writeSessionOk with
      | .error _ => (s, none, d₁)
      | .ok d₂ => (s, some summ, d₂)

/-- Source `get_session_history` (lines 112-118): all keys of the sessions
dict; empty on read failure. -/
def get_session_history (d : Disk) : List String :=
  dictKeys (load_sessions d)

/-- Helper for `get_active_sessions`: walk the stored records; a record whose
`is_active` reads false-y under `.get('is_active', False)` is skipped; a
deserialization failure aborts the whole loop (`none`, the except branch). -/
def get_active_sessions_loop : List (String × RawSession) → Option (List ChatSession)
  | [] => some []
  | (_, raw) :: rest =>
    if raw.is_active.getD false then
      match raw.from_dict? with
      | none => none
      | some s => (get_active_sessions_loop rest).map (s :: ·)
    else get_active_sessions_loop rest

/-- Source `get_active_sessions` (lines 120-134): deserializes every stored
record whose `is_active` flag reads true; any failure yields the empty
list. -/
def get_active_sessions (d : Disk) : List ChatSession :=
  (get_active_sessions_loop (load_sessions d)).getD []

/-- Source `delete_session` (lines 136-154): remove the key when present and
rewrite the file, returning whether a deletion occurred; a failed write is
caught and reported as `false`, with the document unchanged. The summaries
document is never touched. -/
def delete_session (d : Disk) (session_id : String) (writeOk : Bool) :
    Bool × Disk :=
  let sessions := load_sessions d
  match dictGet? sessions session_id with
  | some _ =>
    let sessions := dictErase sessions session_id
    if writeOk then (true, { d with sessionsDoc := .ok sessions }) else (false, d)
  | none => (false, d)

/-- Descending order on stored session entries by the raw stored string
representation of `start_time`:
`session_items.sort(key=lambda x: x[1].get('start_time', ''), reverse=True)`
at line 225. -/
def sessionDescLe (a b : String × RawSession) : Bool :=
  pyStrLe (b.2.start_time.getD "") (a.2.start_time.getD "")

/-- Source `cleanup_old_sessions` (lines 214-245). No-op when the stored count
is at most `keep_count`. Otherwise sorts the entries by the raw stored
`start_time` string descending (stable), keeps the first `keep_count`,
rewrites the sessions file, then drops the removed ids from the summaries
dict and rewrites the summaries file. Each write takes a success flag; any
raised failure is caught and swallowed (the function always returns), leaving
the not-yet-written documents unchanged. -/
def cleanup_old_sessions (d : Disk) (keep_count : Nat)
    (writeSessionsOk writeSummariesOk : Bool) : Disk :=
  let sessions := load_sessions d
  let summaries := load_summaries d
  if sessions.length ≤ keep_count then d
  else
    let sorted := List.insertionSort (fun a b => sessionDescLe a b = true) sessions
    let keep := sorted.take keep_count
    if writeSessionsOk then
      let d₁ : Disk := { d with sessionsDoc := .ok keep }
      let deleted := (dictKeys sessions).filter (fun k => decide (k ∉ dictKeys keep))
      let summaries₂ := deleted.foldl dictErase summaries
      if writeSummariesOk then { d₁ with summariesDoc := .ok summaries₂ } else d₁
    else d

/-- Stats record returned by `get_storage_stats` (lines 256-262). The source
key storage_path is what the spec calls the storage location. -/
structure StorageStats where
  total_sessions : Nat
  active_sessions : Nat
  total_summaries : Nat
  total_messages : Nat
  storage_path : String
deriving DecidableEq, Repr

/-- Source `get_storage_stats` (lines 247-266): aggregate read over both
dicts. The body is wrapped in try/except returning the empty dict on any
exception; `exc` says whether such an unexpected runtime failure occurs,
and the empty-dict outcome is `none`. -/
def get_storage_stats (d : Disk) (storagePath : String) (exc : Bool) :
    Option StorageStats :=
  if exc then none
  else
    let sessions := load_sessions d
    let summaries := load_summaries d
    some
      { total_sessions := sessions.length
        active_sessions := sessions.countP (fun p => p.2.is_active.getD false)
        total_summaries := summaries.length
        total_messages := (sessions.map (fun p => (p.2.messages.getD []).length)).sum
        storage_path := storagePath }

/-! ### Helper lemmas about the dict operations -/

theorem dictGet?_dictSet {α : Type} (m : List (String × α)) (k : String)
    (v : α) (key : String) :
    dictGet? (dictSet m k v) key = if key = k then some v else dictGet? m key := by
  induction m with
  | nil =>
    by_cases h : key = k
    · simp [dictSet, dictGet?, h]
    · simp [dictSet, dictGet?, h, Ne.symm h]
  | cons p rest ih =>
    obtain ⟨k', w⟩ := p
    by_cases hk : k' = k
    · subst hk
      by_cases h : key = k'
      · simp [dictSet, dictGet?, h]
      · simp [dictSet, dictGet?, h, Ne.symm h]
    · by_cases h : k' = key
      · subst h
        simp [dictSet, dictGet?, hk, Ne.symm hk]
      · simp [dictSet, dictGet?, hk, h, ih]

theorem mem_dictKeys_of_dictGet? {α : Type} (m : List (String × α))
    (k : String) (v : α) (h : dictGet? m k = some v) : k ∈ dictKeys m := by
  induction m with
  | nil => simp [dictGet?] at h
  | cons p rest ih =>
    obtain ⟨k', w⟩ := p
    by_cases hk : k' = k
    · subst hk; simp [dictKeys]
    · simp only [dictGet?, if_neg hk] at h
      simp [dictKeys] at ih ⊢
      exact Or.inr (ih h)

theorem dictGet?_none_of_not_mem {α : Type} (m : List (String × α))
    (k : String) (h : k ∉ dictKeys m) : dictGet? m k = none := by
  cases hg : dictGet? m k with
  | none => rfl
  | some v => exact absurd (mem_dictKeys_of_dictGet? m k v hg) h

theorem dictGet?_isSome_of_mem_dictKeys {α : Type} (m : List (String × α))
    (k : String) (h : k ∈ dictKeys m) : (dictGet? m k).isSome := by
  induction m with
  | nil => simp [dictKeys] at h
  | cons p rest ih =>
    obtain ⟨k', w⟩ := p
    by_cases hk : k' = k
    · simp [dictGet?, hk]
    · simp only [dictKeys, List.map_cons, List.mem_cons] at h
      rcases h with h | h

      · exact absurd h.symm hk
      · simp only [dictGet?, if_neg hk]
        exact ih h

theorem dictGet?_dictErase {α : Type} (m : List (String × α)) (k key : String)
    (hnd : (dictKeys m).Nodup) :
    dictGet? (dictErase m k) key = if key = k then none else dictGet? m key := by
  induction m with
  | nil => simp [dictErase, dictGet?]
  | cons p rest ih =>
    obtain ⟨k', w⟩ := p
    simp only [dictKeys, List.map_cons, List.nodup_cons] at hnd
    by_cases hk : k' = k
    · subst hk
      simp only [dictErase, if_pos rfl]
      by_cases h : key = k'
      · subst h
        simp [dictGet?_none_of_not_mem rest key hnd.1]
      · simp [dictGet?, h, Ne.symm h]
    · simp only [dictErase, if_neg hk]
      by_cases h : key = k'
      · subst h
        simp [dictGet?, hk]
      · simp [dictGet?, Ne.symm h, ih hnd.2]

theorem dictKeys_dictErase_sublist {α : Type} (m : List (String × α)) (k : String) :
    (dictKeys (dictErase m k)).Sublist (dictKeys m) := by
  induction m with
  | nil => simp [dictErase, dictKeys]
  | cons p rest ih =>
    obtain ⟨k', w⟩ := p
    by_cases hk : k' = k
    · simp only [dictErase, if_pos hk, dictKeys, List.map_cons]
      exact List.sublist_cons_self _ _
    · simp only [dictErase, if_neg hk, dictKeys, List.map_cons]
      exact List.Sublist.cons₂ _ ih

theorem dictGet?_foldl_dictErase {α : Type} (ks : List String)
    (m : List (String × α)) (key : String) (hnd : (dictKeys m).Nodup) :
    dictGet? (ks.foldl dictErase m) key =
      if key ∈ ks then none else dictGet? m key := by
  induction ks generalizing m with
  | nil => simp
  | cons k ks ih =>
    have hnd' : (dictKeys (dictErase m k)).Nodup :=
      (dictKeys_dictErase_sublist m k).nodup hnd
    simp only [List.foldl_cons, ih (dictErase m k) hnd',
      dictGet?_dictErase m k key hnd, List.mem_cons]
    by_cases h1 : key ∈ ks <;> by_cases h2 : key = k <;> simp [h1, h2]

theorem mem_dictValues_dictSet {α : Type} (m : List (String × α))
    (k : String) (v : α) : v ∈ dictValues (dictSet m k v) := by
  induction m with
  | nil => simp [dictSet, dictValues]
  | cons p rest ih =>
    obtain ⟨k', w⟩ := p
    by_cases hk : k' = k
    · simp [dictSet, hk, dictValues]
    · simp only [dictSet, if_neg hk, dictValues, List.map_cons, List.mem_cons]
      exact Or.inr ih

/-! ### The two sort orders are total preorders -/

instance : IsTrans SessionSummary (fun a b => summaryDescLe a b = true) :=
  ⟨fun _ _ _ h₁ h₂ => pyStrLe_trans h₂ h₁⟩

instance : IsTotal SessionSummary (fun a b => summaryDescLe a b = true) :=
  ⟨fun a b => by
    have := pyStrLe_total b.end_time a.end_time
    rcases Bool.or_eq_true_iff.mp this with h | h
    · exact Or.inl h
    · exact Or.inr h⟩

instance : IsTrans (String × RawSession) (fun a b => sessionDescLe a b = true) :=
  ⟨fun _ _ _ h₁ h₂ => pyStrLe_trans h₂ h₁⟩

instance : IsTotal (String × RawSession) (fun a b => sessionDescLe a b = true) :=
  ⟨fun a b => by
    have := pyStrLe_total (b.2.start_time.getD "") (a.2.start_time.getD "")
    rcases Bool.or_eq_true_iff.mp this with h | h
    · exact Or.inl h
    · exact Or.inr h⟩

/-! ### Concrete fixtures used by the witness theorems -/

def rawA : RawSession :=
  ⟨some "a", some [], some "2024-01-01", some true, some true, some []⟩

def rawB : RawSession :=
  ⟨some "b", some [], some "2024-01-02", some false, some true, some []⟩

def summA : SessionSummary := ⟨"a", "sum a", 0, "2024-01-01", "2024-01-01"⟩

def summB : SessionSummary := ⟨"b", "sum b", 0, "2024-01-02", "2024-01-02"⟩

def sessA : ChatSession := ⟨"a", [], "2024-01-01", true, true, []⟩

def sessA2 : ChatSession := ⟨"a", [], "2024-01-03", false, false, []⟩

def d4 : Disk := ⟨.ok [("a", rawA), ("b", rawB)], .ok [("a", summA), ("b", summB)]⟩

/-! ### Claim theorems -/

/-- C7: if the underlying write of the sessions collection fails during
`save_session`, the operation fails with an error surfaced to the caller
(the `raise` at line 62); it never silently succeeds on a failed write. -/
theorem save_session_write_failure_raises (d : Disk) (s : ChatSession) :
    save_session d s false = .error () := rfl

/-- C6: `load_session` returns not-found (`none`) when the key is absent, and
also when the sessions collection cannot be read or parsed; read failures are
never escalated and are indistinguishable from an absent key. -/
theorem load_session_read_failure_notfound (d : Disk) (sid : String) :
    (dictGet? (load_sessions d) sid = none → load_session d sid = none) ∧
    (∀ e : Unit, d.sessionsDoc = .error e → load_session d sid = none) := by
  constructor
  · intro h
    unfold load_session
    rw [h]
  · intro e he
    unfold load_session load_sessions
    rw [he]
    rfl

/-- Witness for C6 at concrete stores: an unreadable collection and an absent
key both report not-found. -/
theorem load_session_read_failure_notfound_witness :
    load_session ⟨.error (), .ok []⟩ "abc" = none ∧
    load_session ⟨.ok [("a", rawA)], .ok []⟩ "abc" = none :=
  ⟨(load_session_read_failure_notfound ⟨.error (), .ok []⟩ "abc").2 () rfl,
   (load_session_read_failure_notfound ⟨.ok [("a", rawA)], .ok []⟩ "abc").1 (by decide)⟩

/-- C8: `delete_session` on an absent id returns false and leaves everything
unchanged; on a present id (with the write succeeding) it returns true and
the id is gone from `get_session_history`; the summaries document is never
touched. -/
theorem delete_session_spec (d : Disk) (sid : String)
    (hnd : (dictKeys (load_sessions d)).Nodup) :
    (dictGet? (load_sessions d) sid = none →
      ∀ w, delete_session d sid w = (false, d)) ∧
    ((dictGet? (load_sessions d) sid).isSome →
      (delete_session d sid true).1 = true ∧
      sid ∉ get_session_history (delete_session d sid true).2) ∧
    (∀ w, (delete_session d sid w).2.summariesDoc = d.summariesDoc) := by
  refine ⟨?_, ?_, ?_⟩
  · intro h w
    simp only [delete_session]
    rw [h]
  · intro h
    obtain ⟨raw, hraw⟩ := Option.isSome_iff_exists.mp h
    have hd : delete_session d sid true =
        (true, { d with sessionsDoc := .ok (dictErase (load_sessions d) sid) }) := by
      simp only [delete_session]
      rw [hraw]
      rfl
    rw [hd]
    refine ⟨rfl, ?_⟩
    show sid ∉ dictKeys (dictErase (load_sessions d) sid)
    intro hmem
    have hsome := dictGet?_isSome_of_mem_dictKeys _ _ hmem
    rw [dictGet?_dictErase _ _ _ hnd, if_pos rfl] at hsome
    simp at hsome
  · intro w
    simp only [delete_session]
    cases hg : dictGet? (load_sessions d) sid with
    | none => rfl
    | some raw => cases w <;> rfl

/-- Witness for C8 at a concrete store with one stored session. -/
theorem delete_session_spec_witness :
    (dictGet? (load_sessions d4) "zzz" = none →
      ∀ w, delete_session d4 "zzz" w = (false, d4)) ∧
    ((dictGet? (load_sessions d4) "a").isSome →
      (delete_session d4 "a" true).1 = true ∧
      "a" ∉ get_session_history (delete_session d4 "a" true).2) ∧
    (∀ w, (delete_session d4 "a" w).2.summariesDoc = d4.summariesDoc) :=
  ⟨(delete_session_spec d4 "zzz" (by decide)).1,
   (delete_session_spec d4 "a" (by decide)).2.1,
   (delete_session_spec d4 "a" (by decide)).2.2⟩

/-- C9: on success `get_storage_stats` aggregates the stored collections:
session count, count of stored sessions whose `is_active` flag reads true,
summary count, and the sum of message counts; on a runtime failure it yields
the empty result instead of propagating an error. -/
theorem get_storage_stats_spec (d : Disk) (sp : String)
    (sess : List (String × RawSession)) (summ : List (String × SessionSummary))
    (hs : d.sessionsDoc = .ok sess) (hm : d.summariesDoc = .ok summ) :
    get_storage_stats d sp false = some
      { total_sessions := sess.length
        active_sessions :=
          ((dictValues sess).filter (fun r => r.is_active.getD false)).length
        total_summaries := summ.length
        total_messages :=
          ((dictValues sess).map (fun r => (r.messages.getD []).length)).sum
        storage_path := sp } ∧
    get_storage_stats d sp true = none := by
  have hls : load_sessions d = sess := by unfold load_sessions; rw [hs]
  have hlm : load_summaries d = summ := by unfold load_summaries; rw [hm]
  constructor
  · simp only [get_storage_stats, hls, hlm]
    rw [if_neg Bool.false_ne_true]
    have hact : List.countP (fun p : String × RawSession => p.2.is_active.getD false) sess
        = (List.filter (fun r : RawSession => r.is_active.getD false)
            (List.map Prod.snd sess)).length := by
      rw [← List.countP_eq_length_filter, List.countP_map]
      rfl
    have hmsg : (List.map (fun p : String × RawSession => (p.2.messages.getD []).length) sess).sum
        = ((List.map Prod.snd sess).map (fun r : RawSession => (r.messages.getD []).length)).sum := by
      rw [List.map_map]
      rfl
    rw [hact, hmsg]
    rfl
  · rfl

/-- Witness for C9 at a concrete store. -/
theorem get_storage_stats_spec_witness :
    get_storage_stats d4 "p" false = some
      { total_sessions := [("a", rawA), ("b", rawB)].length
        active_sessions :=
          ((dictValues [("a", rawA), ("b", rawB)]).filter
            (fun r => r.is_active.getD false)).length
        total_summaries := [("a", summA), ("b", summB)].length
        total_messages :=
          ((dictValues [("a", rawA), ("b", rawB)]).map
            (fun r => (r.messages.getD []).length)).sum
        storage_path := "p" } ∧
    get_storage_stats d4 "p" true = none :=
  get_storage_stats_spec d4 "p" _ _ rfl rfl

/-- Helper for C10: a stored record whose `is_active` field is absent is
skipped by the `get_active_sessions` loop exactly as if it were not stored. -/
theorem get_active_sessions_loop_skip (pre post : List (String × RawSession))
    (e : String × RawSession) (he : e.2.is_active = none) :
    get_active_sessions_loop (pre ++ e :: post) =
      get_active_sessions_loop (pre ++ post) := by
  induction pre with
  | nil =>
    obtain ⟨k, raw⟩ := e
    simp only at he
    simp [get_active_sessions_loop, he]
  | cons p pre ih =>
    obtain ⟨k, raw⟩ := p
    simp only [List.cons_append, get_active_sessions_loop, List.append_eq, ih]

/-- C10: a stored session record that lacks the `is_active` field is treated
as inactive at the public interface: `get_active_sessions` excludes it and
`get_storage_stats` does not count it in `active_sessions`. -/
theorem missing_is_active_treated_inactive
    (pre post : List (String × RawSession)) (e : String × RawSession)
    (he : e.2.is_active = none)
    (sd : Except Unit (List (String × SessionSummary))) (sp : String) :
    get_active_sessions ⟨.ok (pre ++ e :: post), sd⟩ =
      get_active_sessions ⟨.ok (pre ++ post), sd⟩ ∧
    (get_storage_stats ⟨.ok (pre ++ e :: post), sd⟩ sp false).map
        (fun st => st.active_sessions) =
      (get_storage_stats ⟨.ok (pre ++ post), sd⟩ sp false).map
        (fun st => st.active_sessions) := by
  constructor
  · simp only [get_active_sessions, load_sessions]
    rw [get_active_sessions_loop_skip pre post e he]
  · simp only [get_storage_stats, load_sessions]
    rw [if_neg Bool.false_ne_true, if_neg Bool.false_ne_true]
    simp [List.countP_append, List.countP_cons, he]

/-- Witness for C10: a record with no `is_active` key contributes to neither
interface. -/
theorem missing_is_active_treated_inactive_witness :
    get_active_sessions ⟨.ok ([("a", rawA)] ++ ("c", ⟨some "c", some [], some "2024-01-03", none, some true, some []⟩) :: [("b", rawB)]), .ok []⟩ =
      get_active_sessions ⟨.ok ([("a", rawA)] ++ [("b", rawB)]), .ok []⟩ ∧
    (get_storage_stats ⟨.ok ([("a", rawA)] ++ ("c", ⟨some "c", some [], some "2024-01-03", none, some true, some []⟩) :: [("b", rawB)]), .ok []⟩ "p" false).map
        (fun st => st.active_sessions) =
      (get_storage_stats ⟨.ok ([("a", rawA)] ++ [("b", rawB)]), .ok []⟩ "p" false).map
        (fun st => st.active_sessions) :=
  missing_is_active_treated_inactive [("a", rawA)] [("b", rawB)]
    ("c", ⟨some "c", some [], some "2024-01-03", none, some true, some []⟩)
    rfl (.ok []) "p"

/-- C2: `get_session_summaries` returns the full persisted summaries
collection sorted by `end_time` descending, `create_session` with memory
enabled attaches exactly that sequence as `previous_summaries`, and with
memory disabled attaches the empty sequence. The method itself touches no
storage: its embedding returns only the new session. -/
theorem get_session_summaries_sorted_create (d : Disk)
    (m : List (String × SessionSummary)) (hm : d.summariesDoc = .ok m) :
    (get_session_summaries d).Perm (dictValues m) ∧
    List.Pairwise (fun a b => summaryDescLe a b = true) (get_session_summaries d) ∧
    (∀ sid now, (create_session d true sid now).previous_summaries =
      get_session_summaries d) ∧
    (∀ sid now, (create_session d false sid now).previous_summaries = []) := by
  refine ⟨?_, ?_, fun sid now => rfl, fun sid now => rfl⟩
  · have hlm : load_summaries d = m := by unfold load_summaries; rw [hm]
    simp only [get_session_summaries, load_all_summaries, hlm]
    exact List.perm_insertionSort _ _
  · exact List.sorted_insertionSort _ _

/-- Witness for C2 at a concrete store with two summaries stored out of
order. -/
theorem get_session_summaries_sorted_create_witness :
    (get_session_summaries d4).Perm (dictValues [("a", summA), ("b", summB)]) ∧
    List.Pairwise (fun a b => summaryDescLe a b = true) (get_session_summaries d4) ∧
    (∀ sid now, (create_session d4 true sid now).previous_summaries =
      get_session_summaries d4) ∧
    (∀ sid now, (create_session d4 false sid now).previous_summaries = []) :=
  get_session_summaries_sorted_create d4 [("a", summA), ("b", summB)] rfl

/-- C5: `save_session` followed by `load_session` with the same id returns an
equivalent session (round-trip fidelity of all fields), and a second save of
the same id replaces the stored record entirely (overwrite semantics). -/
theorem save_load_roundtrip (d : Disk) (s s₂ : ChatSession)
    (hid : s₂.session_id = s.session_id) :
    ∃ d₁ d₂,
      save_session d s true = .ok d₁ ∧
      load_session d₁ s.session_id = some s ∧
      save_session d₁ s₂ true = .ok d₂ ∧
      load_session d₂ s.session_id = some s₂ ∧
      dictGet? (load_sessions d₂) s.session_id = some s₂.to_dict := by
  refine ⟨_, _, rfl, ?_, rfl, ?_, ?_⟩
  · show (match dictGet? (dictSet (load_sessions d) s.session_id s.to_dict)
        s.session_id with
      | some raw => raw.from_dict?
      | none => none) = some s
    rw [dictGet?_dictSet, if_pos rfl]
    exact from_dict_to_dict s
  · show (match dictGet? (dictSet (dictSet (load_sessions d) s.session_id s.to_dict)
        s₂.session_id s₂.to_dict) s.session_id with
      | some raw => raw.from_dict?
      | none => none) = some s₂
    rw [dictGet?_dictSet, if_pos hid.symm]
    exact from_dict_to_dict s₂
  · show dictGet? (dictSet (dictSet (load_sessions d) s.session_id s.to_dict)
        s₂.session_id s₂.to_dict) s.session_id = some s₂.to_dict
    rw [dictGet?_dictSet, if_pos hid.symm]

/-- Witness for C5: save, reload, overwrite with a changed session carrying
the same id, reload again. -/
theorem save_load_roundtrip_witness :
    ∃ d₁ d₂,
      save_session d4 sessA true = .ok d₁ ∧
      load_session d₁ sessA.session_id = some sessA ∧
      save_session d₁ sessA2 true = .ok d₂ ∧
      load_session d₂ sessA.session_id = some sessA2 ∧
      dictGet? (load_sessions d₂) sessA.session_id = some sessA2.to_dict :=
  save_load_roundtrip d4 sessA sessA2 rfl

/-- C1: a successful `close_session` marks the session inactive and returns a
summary carrying the session id, the message count at close time, the start
time, and `now()` as end time (at least the start time when the clock has not
gone backwards since creation); the summary is upserted into the summaries
collection independent of `memory_enabled` and is afterwards returned by
`get_session_summaries`, ranked by `end_time` among the existing
summaries. -/
theorem close_session_spec (d : Disk) (s : ChatSession) (text : String)
    (now : DateTime) (hts : pyStrLe s.start_time now = true) :
    ∃ summ : SessionSummary,
      (close_session d s (.ok text) now true true).1.is_active = false ∧
      (close_session d s (.ok text) now true true).2.1 = some summ ∧
      summ.session_id = s.session_id ∧
      summ.summary = text ∧
      summ.message_count = s.messages.length ∧
      summ.start_time = s.start_time ∧
      summ.end_time = now ∧
      pyStrLe summ.start_time summ.end_time = true ∧
      dictGet? (load_summaries (close_session d s (.ok text) now true true).2.2)
        s.session_id = some summ ∧
      summ ∈ get_session_summaries (close_session d s (.ok text) now true true).2.2 ∧
      List.Pairwise (fun a b => summaryDescLe a b = true)
        (get_session_summaries (close_session d s (.ok text) now true true).2.2) ∧
      (∀ b : Bool,
        (close_session d { s with memory_enabled := b }
            (.ok text) now true true).2.2.summariesDoc =
          (close_session d s (.ok text) now true true).2.2.summariesDoc) := by
  refine ⟨{ session_id := s.session_id, summary := text,
            message_count := s.messages.length,
            start_time := s.start_time, end_time := now },
    rfl, rfl, rfl, rfl, rfl, rfl, rfl, hts, ?_, ?_, ?_, fun b => rfl⟩
  · show dictGet? (dictSet (load_summaries d) s.session_id _) s.session_id = _
    rw [dictGet?_dictSet, if_pos rfl]
  · show _ ∈ List.insertionSort (fun a b => summaryDescLe a b = true)
      (dictValues (dictSet (load_summaries d) s.session_id _))
    exact (List.perm_insertionSort _ _).mem_iff.mpr
      (mem_dictValues_dictSet (load_summaries d) s.session_id _)
  · exact List.sorted_insertionSort _ _

/-- Witness for C1: closing a session on a concrete store whose clock reading
at close is not before the start time. -/
theorem close_session_spec_witness :
    pyStrLe sessA.start_time "2024-01-05" = true ∧
    (∃ summ : SessionSummary,
      (close_session d4 sessA (.ok "t") "2024-01-05" true true).1.is_active = false ∧
      (close_session d4 sessA (.ok "t") "2024-01-05" true true).2.1 = some summ ∧
      summ.session_id = sessA.session_id ∧
      summ.summary = "t" ∧
      summ.message_count = sessA.messages.length ∧
      summ.start_time = sessA.start_time ∧
      summ.end_time = "2024-01-05" ∧
      pyStrLe summ.start_time summ.end_time = true ∧
      dictGet? (load_summaries (close_session d4 sessA (.ok "t") "2024-01-05" true true).2.2)
        sessA.session_id = some summ ∧
      summ ∈ get_session_summaries
        (close_session d4 sessA (.ok "t") "2024-01-05" true true).2.2 ∧
      List.Pairwise (fun a b => summaryDescLe a b = true)
        (get_session_summaries (close_session d4 sessA (.ok "t") "2024-01-05" true true).2.2) ∧
      (∀ b : Bool,
        (close_session d4 { sessA with memory_enabled := b }
            (.ok "t") "2024-01-05" true true).2.2.summariesDoc =
          (close_session d4 sessA (.ok "t") "2024-01-05" true true).2.2.summariesDoc)) :=
  ⟨by decide, close_session_spec d4 sessA "t" "2024-01-05" (by decide)⟩

/-- C3: with `M` stored sessions and `keep_count = N < M`, a fully successful
`cleanup_old_sessions` leaves exactly `N` sessions, all drawn from the stored
ones, each ranking at least every removed session under the raw stored
string representation of `start_time` (descending), and removes from the
summaries collection exactly the entries keyed by the removed session ids,
leaving every other summary untouched. -/
theorem cleanup_old_sessions_spec (d : Disk)
    (sess : List (String × RawSession)) (summ : List (String × SessionSummary))
    (hs : d.sessionsDoc = .ok sess) (hm : d.summariesDoc = .ok summ)
    (hnds : (dictKeys summ).Nodup) (N : Nat) (hN : N < sess.length) :
    ∃ keep : List (String × RawSession),
      (cleanup_old_sessions d N true true).sessionsDoc = .ok keep ∧
      keep.length = N ∧
      (∀ a ∈ keep, a ∈ sess) ∧
      (∀ a ∈ keep, ∀ b ∈ sess, b.1 ∉ dictKeys keep →
        pyStrLe (b.2.start_time.getD "") (a.2.start_time.getD "") = true) ∧
      (∀ k, dictGet? (load_summaries (cleanup_old_sessions d N true true)) k =
        if k ∈ dictKeys sess ∧ k ∉ dictKeys keep then none
        else dictGet? summ k) := by
  have hls : load_sessions d = sess := by unfold load_sessions; rw [hs]
  have hlm : load_summaries d = summ := by unfold load_summaries; rw [hm]
  set sorted : List (String × RawSession) :=
    List.insertionSort (fun a b => sessionDescLe a b = true) sess with hsorted_def
  have hperm : sorted.Perm sess := List.perm_insertionSort _ _
  have hsorted : List.Pairwise (fun a b => sessionDescLe a b = true) sorted :=
    List.sorted_insertionSort _ _
  set keep : List (String × RawSession) := sorted.take N with hkeep_def
  have hred : cleanup_old_sessions d N true true =
      ⟨.ok keep,
       .ok (((dictKeys sess).filter (fun k => decide (k ∉ dictKeys keep))).foldl
          dictErase summ)⟩ := by
    simp only [cleanup_old_sessions, hls, hlm]
    rw [if_neg (Nat.not_le.mpr hN)]
    rfl
  refine ⟨keep, by rw [hred], ?_, ?_, ?_, ?_⟩
  · rw [hkeep_def, List.length_take, hperm.length_eq]
    exact Nat.min_eq_left (Nat.le_of_lt hN)
  · intro a ha
    exact hperm.subset (List.mem_of_mem_take ha)
  · intro a ha b hb hbk
    have hb' : b ∈ sorted := hperm.mem_iff.mpr hb
    rw [← List.take_append_drop N sorted] at hb'
    rcases List.mem_append.mp hb' with hmem | hmem
    · exact absurd (List.mem_map_of_mem Prod.fst hmem) hbk
    · have hpw := hsorted
      rw [← List.take_append_drop N sorted] at hpw
      exact (List.pairwise_append.mp hpw).2.2 a ha b hmem
  · intro k
    have hlm₂ : load_summaries (cleanup_old_sessions d N true true) =
        ((dictKeys sess).filter (fun k => decide (k ∉ dictKeys keep))).foldl
          dictErase summ := by
      rw [hred]
      rfl
    rw [hlm₂, dictGet?_foldl_dictErase _ _ _ hnds]
    by_cases h : k ∈ dictKeys sess ∧ k ∉ dictKeys keep
    · rw [if_pos, if_pos h]
      simp only [List.mem_filter, decide_eq_true_eq]
      exact h
    · rw [if_neg, if_neg h]
      simp only [List.mem_filter, decide_eq_true_eq]
      exact h

/-- Witness for C3: a concrete store with two sessions (start times
2024-01-01 and 2024-01-02) and their summaries, cleaned with
`keep_count = 1`. -/
theorem cleanup_old_sessions_spec_witness :
    ∃ keep : List (String × RawSession),
      (cleanup_old_sessions d4 1 true true).sessionsDoc = .ok keep ∧
      keep.length = 1 ∧
      (∀ a ∈ keep, a ∈ [("a", rawA), ("b", rawB)]) ∧
      (∀ a ∈ keep, ∀ b ∈ [("a", rawA), ("b", rawB)], b.1 ∉ dictKeys keep →
        pyStrLe (b.2.start_time.getD "") (a.2.start_time.getD "") = true) ∧
      (∀ k, dictGet? (load_summaries (cleanup_old_sessions d4 1 true true)) k =
        if k ∈ dictKeys [("a", rawA), ("b", rawB)] ∧ k ∉ dictKeys keep then none
        else dictGet? [("a", summA), ("b", summB)] k) :=
  cleanup_old_sessions_spec d4 [("a", rawA), ("b", rawB)]
    [("a", summA), ("b", summB)] rfl rfl (by decide) 1 (by decide)

/-- Counterexample for C4: on a store with two sessions and two summaries,
run `cleanup_old_sessions(keep_count=1)` where the sessions write succeeds
and the subsequent summaries write fails. A failure occurred during cleanup,
yet the stored sessions collection was already rewritten: the prior stored
state is NOT left untouched, so the operation is not atomic. -/
theorem cleanup_not_atomic_cex :
    load_sessions (cleanup_old_sessions d4 1 true false) ≠ load_sessions d4 := by
  decide

/-- C4 (amended): `cleanup_old_sessions` never raises (it is a total function
of the injected failure outcomes), is a no-op on storage when the stored
session count is at most `keep_count`, and a failure at or before the
sessions-collection write leaves both collections untouched; but when the
sessions write succeeds and only the later summaries write fails, the
sessions collection has already been rewritten, while the summaries
collection stays untouched. -/
theorem cleanup_error_behavior (d : Disk) (N : Nat) :
    ((load_sessions d).length ≤ N →
      ∀ w₁ w₂ : Bool, cleanup_old_sessions d N w₁ w₂ = d) ∧
    (∀ w₂ : Bool, cleanup_old_sessions d N false w₂ = d) ∧
    (cleanup_old_sessions d N true false).summariesDoc = d.summariesDoc := by
  refine ⟨?_, ?_, ?_⟩
  · intro h w₁ w₂
    simp only [cleanup_old_sessions]
    rw [if_pos h]
  · intro w₂
    simp only [cleanup_old_sessions]
    by_cases h : (load_sessions d).length ≤ N
    · rw [if_pos h]
    · rw [if_neg h]
      rfl
  · by_cases h : (load_sessions d).length ≤ N
    · simp only [cleanup_old_sessions]
      rw [if_pos h]
    · simp only [cleanup_old_sessions]
      rw [if_neg h]
      rfl

/-- Witness for C4 (amended) at concrete stores: the no-op case, the
failed-sessions-write case, and the failed-summaries-write case. -/
theorem cleanup_error_behavior_witness :
    cleanup_old_sessions d4 2 true true = d4 ∧
    cleanup_old_sessions d4 1 false true = d4 ∧
    (cleanup_old_sessions d4 1 true false).summariesDoc = d4.summariesDoc :=
  ⟨(cleanup_error_behavior d4 2).1 (by decide) true true,
   (cleanup_error_behavior d4 1).2.1 true,
   (cleanup_error_behavior d4 1).2.2⟩

end TidbMemory
